import Mathlib

/-!
Verification of the textual-serve gateway against its specification.

The definitions below are a shallow embedding of the Python sources in
`src/textual_serve/`:

* the frame codec of `app_service.py` (`AppService.encode_packet` and the
  frame-reading part of `AppService.run`),
* the prelude handshake of `AppService.run`,
* the error handling of `AppService.send_bytes`,
* the download broker of `download_manager.py` (`Download`,
  `DownloadManager.create_download`, `chunk_received`, `download`,
  `cancel_app_downloads`, `get_download_metadata`),
* the per-message websocket dispatch of `server.py`
  (`Server._process_messages`) and the not-found branch of
  `Server.handle_download`.

Byte strings are `List Nat` with each element a byte value; Python `None`
is `Option.none`; functions that can raise return `Option` or `Except`.
-/

namespace TextualServe

/-- A Python `bytes` value: a list of byte values. -/
abbrev Bytes := List Nat

/-! ## Frame codec (`app_service.py`) -/

/-- Python `int.to_bytes(width, "big")`: the big-endian `width`-byte
representation of `v` (the low `8 * width` bits of `v`). -/
def beBytes : Nat → Nat → Bytes
  | 0, _ => []
  | w + 1, v => beBytes w (v / 256) ++ [v % 256]

/-- Python `int.from_bytes(bs, "big")`. -/
def beDecode (bs : Bytes) : Nat :=
  bs.foldl (fun a b => 256 * a + b) 0

/-- `AppService.encode_packet`: the single tag byte, the big-endian 4-byte
length of the payload, then the payload. -/
def encode_packet (packet_type : Nat) (payload : Bytes) : Bytes :=
  packet_type :: (beBytes 4 payload.length ++ payload)

/-- `asyncio.StreamReader.readexactly(n)`: returns exactly `n` bytes and the
rest of the stream, or `none` when the stream is shorter than `n`
(`IncompleteReadError`, which ends the session cleanly). -/
def readexactly (n : Nat) (s : Bytes) : Option (Bytes × Bytes) :=
  if n ≤ s.length then some (s.take n, s.drop n) else none

/-- One iteration of the frame loop in `AppService.run`: read 1 tag byte,
read 4 length bytes, decode the length big-endian, read exactly that many
payload bytes.  Returns the tag, the payload and the remaining stream.
There is no ceiling on the decoded length: whatever `size` decodes to is
passed straight to `readexactly`. -/
def readFrame (s : Bytes) : Option (Nat × Bytes × Bytes) :=
  match readexactly 1 s with
  | none => none
  | some (type_bytes, s1) =>
    match readexactly 4 s1 with
    | none => none
    | some (size_bytes, s2) =>
      match readexactly (beDecode size_bytes) s2 with
      | none => none
      | some (payload, s3) =>
        match type_bytes with
        | [t] => some (t, payload, s3)
        | _ => none

/-- The frame loop of `AppService.run`, fuelled: repeatedly read frames
until a read comes up short (`IncompleteReadError`), collecting the
`(tag, payload)` pairs that were dispatched. -/
def frameLoopFuel : Nat → Bytes → List (Nat × Bytes)
  | 0, _ => []
  | fuel + 1, s =>
    match readFrame s with
    | none => []
    | some (t, payload, rest) => (t, payload) :: frameLoopFuel fuel rest

/-- The frame loop of `AppService.run` on a finite stream.  Each successful
`readFrame` consumes at least five bytes, so `s.length + 1` units of fuel
are enough to reach the end of any finite stream. -/
def frameLoop (s : Bytes) : List (Nat × Bytes) :=
  frameLoopFuel (s.length + 1) s

/-! ## Prelude handshake (`AppService.run`) -/

/-- `asyncio.StreamReader.readline()`: bytes up to and including the first
newline, or everything to the end of the stream when no newline occurs
(at EOF the empty byte string is returned). -/
def readline : Bytes → Bytes × Bytes
  | [] => ([], [])
  | b :: rest =>
    if b = 10 then ([10], rest)
    else
      let (l, r) := readline rest
      (b :: l, r)

/-- The sentinel line `b"__GANGLION__\n"` as bytes. -/
def ganglionLine : Bytes :=
  [95, 95, 71, 65, 78, 71, 76, 73, 79, 78, 95, 95, 10]

/-- The prelude loop of `AppService.run` (`for _ in range(10)`): read up to
`fuel` lines; stop early with `true` on the sentinel line, or with `false`
at EOF (an empty line).  Returns the readiness flag and the rest of the
stream.  When the flag is `false` the code logs a startup error and flushes
the accumulated stderr. -/
def handshake : Nat → Bytes → Bool × Bytes
  | 0, s => (false, s)
  | n + 1, s =>
    let (line, rest) := readline s
    if line = [] then (false, rest)
    else if line = ganglionLine then (true, rest)
    else handshake n rest

/-- `AppService.run` on the child's stdout stream: the prelude handshake
followed by the frame loop on whatever is left of the stream.  Returns the
readiness flag and the frames consumed by the frame loop. -/
def runSession (s : Bytes) : Bool × List (Nat × Bytes) :=
  let (ready, rest) := handshake 10 s
  (ready, frameLoop rest)

/-- A byte string that is a single line: non-empty, ends with the newline
byte and contains no earlier newline byte. -/
def lineShaped : Bytes → Bool
  | [] => false
  | [b] => b = 10
  | b :: rest => b ≠ 10 && lineShaped rest

/-! ## Helper lemmas for the frame codec -/

theorem beBytes_length (w v : Nat) : (beBytes w v).length = w := by
  induction w generalizing v with
  | zero => rfl
  | succ w ih => simp [beBytes, ih]

theorem beDecode_append_single (l : Bytes) (x : Nat) :
    beDecode (l ++ [x]) = 256 * beDecode l + x := by
  simp [beDecode, List.foldl_append]

theorem beDecode_beBytes_mod (w v : Nat) :
    beDecode (beBytes w v) = v % 256 ^ w := by
  induction w generalizing v with
  | zero => simp [beBytes, beDecode, Nat.mod_one]
  | succ w ih =>
    rw [beBytes, beDecode_append_single, ih]
    have h : v % (256 * 256 ^ w) = v % 256 + 256 * (v / 256 % 256 ^ w) :=
      Nat.mod_mul
    have hp : (256 : Nat) ^ (w + 1) = 256 * 256 ^ w := by ring
    rw [hp, h]
    omega

theorem beDecode_beBytes (v : Nat) (h : v < 4294967296) :
    beDecode (beBytes 4 v) = v := by
  rw [beDecode_beBytes_mod]
  exact Nat.mod_eq_of_lt (by norm_num at h ⊢; omega)

theorem readexactly_append (l1 l2 : Bytes) :
    readexactly l1.length (l1 ++ l2) = some (l1, l2) := by
  simp [readexactly, List.take_left, List.drop_left]

/-- The shape of one frame-loop read on any stream that starts with a tag
byte and a 4-byte big-endian length `L`: the loop attempts to read exactly
`L` payload bytes, whatever `L` is; it fails (ending the session via the
incomplete-read path) only when fewer than `L` bytes remain. -/
theorem readFrame_header (tg L : Nat) (s : Bytes) (hL : L < 4294967296) :
    readFrame (tg :: (beBytes 4 L ++ s)) =
      if L ≤ s.length then some (tg, s.take L, s.drop L) else none := by
  have h1 : readexactly 1 (tg :: (beBytes 4 L ++ s)) =
      some ([tg], beBytes 4 L ++ s) := by
    simpa using readexactly_append [tg] (beBytes 4 L ++ s)
  have h4 : readexactly 4 (beBytes 4 L ++ s) = some (beBytes 4 L, s) := by
    have := readexactly_append (beBytes 4 L) s
    rwa [beBytes_length] at this
  simp only [readFrame, h1, h4, beDecode_beBytes L hL]
  by_cases h : L ≤ s.length <;> simp [readexactly, h]

/-- Round trip: reading one frame from the encoding of `(tag, payload)`
returns exactly the tag and the payload, with no bytes left over. -/
theorem readFrame_encode (tg : Nat) (p : Bytes) (hp : p.length < 4294967296) :
    readFrame (encode_packet tg p) = some (tg, p, []) := by
  rw [encode_packet, readFrame_header tg p.length p hp]
  simp

/-! ## Claim C1 -/

/-- Claim C1: frame codec round trip.  For every tag among `D` (68), `M`
(77), `P` (80) and every payload shorter than `2 ^ 32` bytes, decoding the
bytes produced by `encode_packet` — one tag byte, four big-endian length
bytes, then exactly that many payload bytes — yields exactly the original
tag and payload, with no bytes left over. -/
theorem frame_codec_round_trip (tag : Nat) (p : Bytes)
    (htag : tag = 68 ∨ tag = 77 ∨ tag = 80)
    (hlen : p.length < 4294967296) :
    readFrame (encode_packet tag p) = some (tag, p, []) :=
  readFrame_encode tag p hlen

/-- Witness for C1: the round trip evaluated on the concrete Data frame
with payload `[1, 2, 3]`. -/
theorem frame_codec_round_trip_witness :
    readFrame (encode_packet 68 [1, 2, 3]) = some (68, [1, 2, 3], []) :=
  frame_codec_round_trip 68 [1, 2, 3] (Or.inl rfl) (by decide)

/-! ## Claim C2 -/

/-- Counterexample for C2: the frame loop has no memory ceiling.  A frame
whose length field is `67108865` (one byte more than 64 MiB) is read in
full — `readFrame` returns the oversized payload instead of terminating
with a protocol error. -/
theorem frame_no_ceiling_counterexample :
    67108864 < 67108865 ∧
      readFrame (encode_packet 80 (List.replicate 67108865 0)) =
        some (80, List.replicate 67108865 0, []) :=
  ⟨by norm_num, readFrame_encode 80 _ (by rw [List.length_replicate]; norm_num)⟩

/-- Claim C2 (amended): the frame loop imposes no length ceiling.  For any
decoded length field `L < 2 ^ 32` the loop attempts to read exactly `L`
payload bytes; when the stream holds fewer than `L` bytes the read fails
with an incomplete read, which ends the session cleanly — there is no
protocol-error path for oversized lengths. -/
theorem frame_reads_any_length (tg L : Nat) (s : Bytes)
    (hL : L < 4294967296) :
    readFrame (tg :: (beBytes 4 L ++ s)) =
      if L ≤ s.length then some (tg, s.take L, s.drop L) else none :=
  readFrame_header tg L s hL

/-- Witness for the amended C2: a header announcing 5 payload bytes over a
3-byte remainder fails with an incomplete read. -/
theorem frame_reads_any_length_witness :
    readFrame (68 :: (beBytes 4 5 ++ [1, 2, 3])) = none := by
  have h := frame_reads_any_length 68 5 [1, 2, 3] (by decide)
  simpa using h

/-! ## Helper lemmas for the prelude handshake -/

theorem lineShaped_ne_nil {l : Bytes} (h : lineShaped l = true) : l ≠ [] := by
  intro hnil
  subst hnil
  simp [lineShaped] at h

theorem readline_cons_ne (b : Nat) (rest : Bytes) (hb : ¬b = 10) :
    readline (b :: rest) = (b :: (readline rest).1, (readline rest).2) := by
  simp only [readline, if_neg hb]

theorem readline_lineShaped {l : Bytes} (h : lineShaped l = true) (t : Bytes) :
    readline (l ++ t) = (l, t) := by
  induction l with
  | nil => simp [lineShaped] at h
  | cons b rest ih =>
    cases rest with
    | nil =>
      simp only [lineShaped, decide_eq_true_eq] at h
      subst h
      simp [readline]
    | cons c rest2 =>
      simp only [lineShaped, Bool.and_eq_true, bne_iff_ne, ne_eq,
        decide_eq_true_eq] at h
      obtain ⟨hb, hrest⟩ := h
      have ihr := ih hrest
      rw [List.cons_append, readline_cons_ne b _ hb, ihr]

theorem ganglionLine_lineShaped : lineShaped ganglionLine = true := by decide

theorem handshake_first_line (n : Nat) (t : Bytes) :
    handshake (n + 1) (ganglionLine ++ t) = (true, t) := by
  have hr := readline_lineShaped ganglionLine_lineShaped t
  have hne : ganglionLine ≠ [] := lineShaped_ne_nil ganglionLine_lineShaped
  simp [handshake, hr, hne]

theorem handshake_no_sentinel (ls : List Bytes)
    (hlines : ∀ l ∈ ls, lineShaped l = true ∧ l ≠ ganglionLine) (t : Bytes) :
    handshake ls.length (ls.flatten ++ t) = (false, t) := by
  induction ls with
  | nil => simp [handshake]
  | cons l ls ih =>
    obtain ⟨hshaped, hne⟩ := hlines l (by simp)
    have hr := readline_lineShaped hshaped (ls.flatten ++ t)
    have hnil : l ≠ [] := lineShaped_ne_nil hshaped
    simp only [List.length_cons, List.flatten_cons, List.append_assoc]
    rw [handshake, hr]
    simp only [hnil, hne, if_false]
    exact ih (fun l' hl' => hlines l' (by simp [hl']))

/-! ## Claim C4 -/

/-- The concrete stream refuting C4: ten lines `b"a\n"`, none of them the
sentinel, followed by a complete Data frame with payload `b"hi"`. -/
def c4stream : Bytes :=
  (List.replicate 10 ([97, 10] : Bytes)).flatten ++ encode_packet 68 [104, 105]

/-- Counterexample for C4: a stream whose first 10 lines all differ from
the sentinel, followed by a well-formed Data frame.  The supervisor takes
the startup-error branch (readiness flag `false`) and the frame loop then
still consumes that frame — not zero frames — before observing EOF. -/
theorem prelude_handshake_counterexample :
    (runSession c4stream).1 = false ∧
      (runSession c4stream).2 = [(68, [104, 105])] := by decide

/-- Claim C4 (amended): prelude handshake.  For every stream whose first
line is the sentinel `b"__GANGLION__\n"`, the supervisor enters the frame
loop having consumed no bytes of the post-prelude stream (the frames read
are exactly those of the remaining stream).  For every stream consisting of
10 lines that all differ from the sentinel, the supervisor takes the
startup-error branch (logging the error and flushing accumulated stderr),
and when the stream ends at those 10 lines the frame loop consumes zero
frames; in general the frame loop still runs on whatever bytes follow. -/
theorem prelude_handshake (t : Bytes) (ls : List Bytes)
    (h10 : ls.length = 10)
    (hlines : ∀ l ∈ ls, lineShaped l = true ∧ l ≠ ganglionLine) :
    runSession (ganglionLine ++ t) = (true, frameLoop t)
    ∧ runSession ls.flatten = (false, []) := by
  constructor
  · have h := handshake_first_line 9 t
    simp [runSession, h]
  · have h := handshake_no_sentinel ls hlines []
    rw [List.append_nil] at h
    rw [h10] at h
    simp [runSession, h]
    rfl

/-- Witness for the amended C4: evaluated on the sentinel followed by one
byte, and on ten concrete `b"a\n"` lines with nothing after them. -/
theorem prelude_handshake_witness :
    runSession (ganglionLine ++ [68]) = (true, frameLoop [68])
    ∧ runSession (List.replicate 10 ([97, 10] : Bytes)).flatten = (false, []) :=
  prelude_handshake [68] (List.replicate 10 ([97, 10] : Bytes))
    (by decide) (by decide)

/-! ## Download broker (`download_manager.py`) -/

/-- `DOWNLOAD_TIMEOUT` in `download_manager.py`: seconds to wait for a
chunk before treating the download as ended. -/
def DOWNLOAD_TIMEOUT : Nat := 4

/-- `DOWNLOAD_CHUNK_SIZE` in `download_manager.py`. -/
def DOWNLOAD_CHUNK_SIZE : Nat := 65536

/-- The `Download` dataclass.  The `app_service` back-reference is
represented by the app service's id (`AppService.app_service_id`), which is
the only part of it the broker reads (`cancel_app_downloads` compares
`download.app_service.app_service_id`).  The `incoming_chunks` queue is a
FIFO list, head first; `none` is the Python `None` end-of-stream
sentinel. -/
structure Download where
  app_service_id : String
  delivery_key : String
  file_name : String
  open_method : String
  mime_type : String
  encoding : Option String
  name : Option String
  incoming_chunks : List (Option Bytes)
deriving Repr, DecidableEq

/-- The broker's `_active_downloads` dict: an association list keyed by
delivery key, in insertion order (Python dicts preserve insertion
order). -/
abbrev DownloadTable := List (String × Download)

/-- Dict lookup (`table[key]` / `table.get(key)` as an `Option`). -/
def lookup : DownloadTable → String → Option Download
  | [], _ => none
  | (k, d) :: rest, key => if k = key then some d else lookup rest key

/-- Dict value replacement at an existing key. -/
def update (t : DownloadTable) (key : String) (d : Download) : DownloadTable :=
  t.map (fun kd => if kd.1 = key then (key, d) else kd)

/-- Python `del table[key]`. -/
def erase (t : DownloadTable) (key : String) : DownloadTable :=
  t.filter (fun kd => kd.1 ≠ key)

/-- Python `table[key] = d`: replace the value when the key is present,
otherwise append a new entry. -/
def dictInsert (t : DownloadTable) (key : String) (d : Download) :
    DownloadTable :=
  if (lookup t key).isSome then update t key d else t ++ [(key, d)]

/-- `DownloadManager.create_download`: insert a new `Download` with a fresh
empty chunk queue under the delivery key. -/
def create_download (t : DownloadTable) (app_service_id delivery_key
    file_name open_method mime_type : String) (encoding name : Option String) :
    DownloadTable :=
  dictInsert t delivery_key
    ⟨app_service_id, delivery_key, file_name, open_method, mime_type,
      encoding, name, []⟩

/-- A chunk as handed to `chunk_received`: Python `bytes` or `str`. -/
inductive ChunkVal
  | pbytes (b : Bytes)
  | pstr (s : String)
deriving Repr, DecidableEq

/-- UTF-8 encoding of one Unicode code point. -/
def utf8Bytes (c : Nat) : Bytes :=
  if c < 128 then [c]
  else if c < 2048 then [192 + c / 64, 128 + c % 64]
  else if c < 65536 then
    [224 + c / 4096, 128 + c / 64 % 64, 128 + c % 64]
  else
    [240 + c / 262144, 128 + c / 4096 % 64, 128 + c / 64 % 64, 128 + c % 64]

/-- Python `str.encode(codec)`.  The codec machinery itself is part of the
Python standard library, outside this repository; it is modelled as UTF-8
of the string's code points (the default codec).  The codec-name argument
is kept so that the caller's choice of codec stays visible. -/
def pyEncode (_codec : String) (s : String) : Bytes :=
  (s.data.map (fun ch => utf8Bytes ch.toNat)).flatten

/-- `download.encoding or "utf-8"`: Python `or` falls through on falsy
values, so both `None` and the empty string select `"utf-8"`. -/
def encodingOrUtf8 : Option String → String
  | none => "utf-8"
  | some e => if e = "" then "utf-8" else e

/-- `DownloadManager.chunk_received`: look the download up; when absent the
chunk is discarded (logged at debug).  A `str` chunk is encoded with the
download's declared encoding (or UTF-8) first; the resulting bytes are put
at the back of the download's chunk queue. -/
def chunk_received (t : DownloadTable) (delivery_key : String)
    (chunk : ChunkVal) : DownloadTable :=
  match lookup t delivery_key with
  | none => t
  | some d =>
    let bs := match chunk with
      | ChunkVal.pbytes b => b
      | ChunkVal.pstr s => pyEncode (encodingOrUtf8 d.encoding) s
    update t delivery_key
      { d with incoming_chunks := d.incoming_chunks ++ [some bs] }

/-- `chunk_received` applied to a sequence of chunks in order. -/
def applyChunksReceived (t : DownloadTable) (delivery_key : String)
    (cs : List ChunkVal) : DownloadTable :=
  cs.foldl (fun acc c => chunk_received acc delivery_key c) t

/-- `DownloadManager.cancel_app_downloads`: for every download whose owning
app service has the given id, put the `None` end-of-stream sentinel at the
back of its chunk queue.  Nothing is removed from the table. -/
def cancel_app_downloads (t : DownloadTable) (app_service_id : String) :
    DownloadTable :=
  t.map (fun kd =>
    if kd.2.app_service_id = app_service_id then
      (kd.1, { kd.2 with
        incoming_chunks := kd.2.incoming_chunks ++ [none] })
    else kd)

/-- The broker interaction of `AppService.stop`: its only effect on the
download table is the call
`download_manager.cancel_app_downloads(app_service_id)` (the rest of
`stop` sends the quit meta frame to the child and joins the read task). -/
def stop_cancel_downloads (app_service_id : String) (t : DownloadTable) :
    DownloadTable :=
  cancel_app_downloads t app_service_id

/-- `DownloadManager.get_download_metadata`: `table[key]`, with the
`KeyError` on a missing key as `none`. -/
def get_download_metadata (t : DownloadTable) (delivery_key : String) :
    Option Download :=
  lookup t delivery_key

/-- The status code of `Server.handle_download`: a `KeyError` from
`get_download_metadata` becomes HTTP 404 (`HTTPNotFound`); otherwise the
response streams with status 200. -/
def handle_download_status (t : DownloadTable) (key : String) : Nat :=
  match get_download_metadata t key with
  | none => 404
  | some _ => 200

/-- The outcome of one iteration of the loop in
`DownloadManager.download`, after the `deliver_chunk_request` meta frame is
attempted:

* `sendFail`: `send_meta` returned `False`;
* `deq c`: `asyncio.wait_for(incoming_chunks.get(), 4)` returned item `c`
  from the queue (`none` is the Python `None` sentinel);
* `timeout`: `wait_for` raised `TimeoutError` after `DOWNLOAD_TIMEOUT`
  seconds, which the code turns into `chunk = None`. -/
inductive DlEvent
  | sendFail
  | deq (c : Option Bytes)
  | timeout
deriving Repr, DecidableEq

/-- The loop of `DownloadManager.download` for a fixed delivery key, driven
by the script of per-iteration outcomes.  Returns the chunks yielded to the
HTTP response and the download table after the loop: every exit path of
the loop executes `del self._active_downloads[delivery_key]`; a falsy
dequeued chunk (`None` or `b""`) ends the stream without being yielded;
a truthy chunk is yielded and the loop continues.  An exhausted script
leaves the loop still waiting, with the table untouched. -/
def downloadRun (t : DownloadTable) (key : String) :
    List DlEvent → List Bytes × DownloadTable
  | [] => ([], t)
  | DlEvent.sendFail :: _ => ([], erase t key)
  | DlEvent.timeout :: _ => ([], erase t key)
  | DlEvent.deq none :: _ => ([], erase t key)
  | DlEvent.deq (some b) :: rest =>
    if b = [] then ([], erase t key)
    else
      let (ys, t1) := downloadRun t key rest
      (b :: ys, t1)

/-- The chunks a `download` loop yields from a queue before reaching a
falsy item: the longest prefix of truthy (`some`, non-empty) chunks. -/
def yieldsOf : List (Option Bytes) → List Bytes
  | [] => []
  | none :: _ => []
  | some b :: rest => if b = [] then [] else b :: yieldsOf rest

/-! ## Helper lemmas for the download broker -/

theorem lookup_cons (k1 key : String) (d1 : Download) (rest : DownloadTable) :
    lookup ((k1, d1) :: rest) key =
      if k1 = key then some d1 else lookup rest key := rfl

theorem update_cons (k1 key : String) (d1 d : Download)
    (rest : DownloadTable) :
    update ((k1, d1) :: rest) key d =
      (if k1 = key then (key, d) else (k1, d1)) :: update rest key d := rfl

theorem cancel_cons (k1 sid : String) (d1 : Download) (rest : DownloadTable) :
    cancel_app_downloads ((k1, d1) :: rest) sid =
      (if d1.app_service_id = sid then
        (k1, { d1 with incoming_chunks := d1.incoming_chunks ++ [none] })
       else (k1, d1)) :: cancel_app_downloads rest sid := rfl

theorem lookup_update_self (t : DownloadTable) (k : String) (d0 d : Download)
    (h : lookup t k = some d0) : lookup (update t k d) k = some d := by
  induction t with
  | nil => simp [lookup] at h
  | cons kd rest ih =>
    obtain ⟨k1, d1⟩ := kd
    rw [update_cons]
    by_cases hk : k1 = k
    · rw [if_pos hk, lookup_cons, if_pos rfl]
    · rw [lookup_cons, if_neg hk] at h
      rw [if_neg hk, lookup_cons, if_neg hk]
      exact ih h

theorem lookup_erase_self (t : DownloadTable) (k : String) :
    lookup (erase t k) k = none := by
  induction t with
  | nil => rfl
  | cons kd rest ih =>
    by_cases hk : kd.1 = k
    · simpa [erase, hk] using ih
    · simpa [erase, lookup, hk] using ih

theorem lookup_append_single (t : DownloadTable) (k : String) (d : Download)
    (h : lookup t k = none) : lookup (t ++ [(k, d)]) k = some d := by
  induction t with
  | nil => simp [lookup]
  | cons kd rest ih =>
    by_cases hk : kd.1 = k
    · simp [lookup, hk] at h
    · simp only [lookup, if_neg hk] at h
      simp [lookup, hk, ih h]

theorem lookup_dictInsert_self (t : DownloadTable) (k : String)
    (d : Download) : lookup (dictInsert t k d) k = some d := by
  unfold dictInsert
  cases h : lookup t k with
  | none => simp [h, lookup_append_single t k d h]
  | some d0 => simp [h, lookup_update_self t k d0 d h]

theorem lookup_cancel (t : DownloadTable) (sid k : String) :
    lookup (cancel_app_downloads t sid) k =
      (lookup t k).map (fun d =>
        if d.app_service_id = sid then
          { d with incoming_chunks := d.incoming_chunks ++ [none] }
        else d) := by
  induction t with
  | nil => rfl
  | cons kd rest ih =>
    obtain ⟨k1, d1⟩ := kd
    rw [cancel_cons]
    by_cases hs : d1.app_service_id = sid
    · rw [if_pos hs]
      by_cases hk : k1 = k
      · rw [lookup_cons, if_pos hk, lookup_cons, if_pos hk]
        simp [hs]
      · rw [lookup_cons, if_neg hk, lookup_cons, if_neg hk, ih]
    · rw [if_neg hs]
      by_cases hk : k1 = k
      · rw [lookup_cons, if_pos hk, lookup_cons, if_pos hk]
        simp [hs]
      · rw [lookup_cons, if_neg hk, lookup_cons, if_neg hk, ih]

theorem chunk_received_lookup (t : DownloadTable) (k : String) (d : Download)
    (b : Bytes) (h : lookup t k = some d) :
    lookup (chunk_received t k (ChunkVal.pbytes b)) k =
      some { d with incoming_chunks := d.incoming_chunks ++ [some b] } := by
  unfold chunk_received
  rw [h]
  exact lookup_update_self t k d _ h

theorem applyChunks_lookup (cs : List Bytes) (t : DownloadTable) (k : String)
    (d : Download) (h : lookup t k = some d) :
    lookup (applyChunksReceived t k (cs.map ChunkVal.pbytes)) k =
      some { d with incoming_chunks := d.incoming_chunks ++ cs.map some } := by
  induction cs generalizing t d with
  | nil => simpa using h
  | cons c cs ih =>
    have step := chunk_received_lookup t k d c h
    have := ih (chunk_received t k (ChunkVal.pbytes c))
      { d with incoming_chunks := d.incoming_chunks ++ [some c] } step
    simpa [applyChunksReceived, List.foldl_cons, List.append_assoc] using this

theorem downloadRun_yields (t : DownloadTable) (k : String) (cs : List Bytes)
    (hc : ∀ c ∈ cs, c ≠ []) (e : DlEvent) (rest : List DlEvent)
    (he : e = DlEvent.sendFail ∨ e = DlEvent.timeout ∨
      e = DlEvent.deq none ∨ e = DlEvent.deq (some [])) :
    downloadRun t k (cs.map (fun c => DlEvent.deq (some c)) ++ e :: rest) =
      (cs, erase t k) := by
  induction cs with
  | nil =>
    rcases he with h | h | h | h <;> subst h <;> simp [downloadRun]
  | cons c cs ih =>
    have hcne : c ≠ [] := hc c (by simp)
    have ihr := ih (fun c' hc' => hc c' (by simp [hc']))
    simp [downloadRun, hcne, ihr]

theorem downloadRun_queue_sentinel (t : DownloadTable) (k : String)
    (q : List (Option Bytes)) (rest : List DlEvent) :
    downloadRun t k (q.map DlEvent.deq ++ DlEvent.deq none :: rest) =
      (yieldsOf q, erase t k) := by
  induction q with
  | nil => simp [downloadRun, yieldsOf]
  | cons c q ih =>
    cases c with
    | none => simp [downloadRun, yieldsOf]
    | some b =>
      by_cases hb : b = []
      · simp [downloadRun, yieldsOf, hb]
      · simp [downloadRun, yieldsOf, hb, ih]

/-! ## Claim C5 -/

/-- Claim C5: download timeout.  When an iteration of the `download` loop
times out waiting for a chunk (`DOWNLOAD_TIMEOUT` is 4 seconds), the
stream ends gracefully: the chunks yielded are exactly those dequeued
before the timeout, nothing after the timeout is yielded, the delivery key
is deleted from the active-download table, and a subsequent metadata
lookup (`GET /download/key`) is a 404 not-found. -/
theorem download_timeout (t : DownloadTable) (k : String) (cs : List Bytes)
    (rest : List DlEvent) (hc : ∀ c ∈ cs, c ≠ []) :
    DOWNLOAD_TIMEOUT = 4
    ∧ downloadRun t k
        (cs.map (fun c => DlEvent.deq (some c)) ++ DlEvent.timeout :: rest) =
        (cs, erase t k)
    ∧ get_download_metadata (erase t k) k = none
    ∧ handle_download_status (erase t k) k = 404 := by
  refine ⟨rfl, ?_, ?_, ?_⟩
  · exact downloadRun_yields t k cs hc DlEvent.timeout rest (Or.inr (Or.inl rfl))
  · exact lookup_erase_self t k
  · simp [handle_download_status, get_download_metadata, lookup_erase_self]

/-- Witness for C5: one chunk `[104]` is dequeued, then the wait times
out; the loop yields only `[104]` and erases the key, and the download
endpoint then answers 404. -/
theorem download_timeout_witness :
    DOWNLOAD_TIMEOUT = 4
    ∧ downloadRun [] "k"
        ([[104]].map (fun c => DlEvent.deq (some c)) ++ DlEvent.timeout :: []) =
        ([[104]], erase [] "k")
    ∧ get_download_metadata (erase [] "k") "k" = none
    ∧ handle_download_status (erase [] "k") "k" = 404 :=
  download_timeout [] "k" [[104]] [] (by decide)

/-! ## Claim C6 -/

/-- Claim C6: chunk ordering per key.  Starting from a freshly created
download, if `chunk_received` enqueues the non-empty chunks of `cs` in
order and then the end-of-stream sentinel (the empty chunk), the queue
holds exactly those items in order, and the `download` loop yields exactly
`cs` in that order and then terminates: the sentinel is never yielded and
its dequeue deletes the key from the table. -/
theorem download_chunk_order (t : DownloadTable)
    (sid k fn om mt : String) (enc nm : Option String)
    (cs : List Bytes) (rest : List DlEvent) (hc : ∀ c ∈ cs, c ≠ []) :
    (lookup (applyChunksReceived (create_download t sid k fn om mt enc nm) k
        ((cs ++ [[]]).map ChunkVal.pbytes)) k).map Download.incoming_chunks
      = some (cs.map some ++ [some []])
    ∧ downloadRun
        (applyChunksReceived (create_download t sid k fn om mt enc nm) k
          ((cs ++ [[]]).map ChunkVal.pbytes)) k
        ((cs.map some ++ [some []]).map DlEvent.deq ++ rest)
      = (cs,
          erase (applyChunksReceived (create_download t sid k fn om mt enc nm)
            k ((cs ++ [[]]).map ChunkVal.pbytes)) k) := by
  have h0 : lookup (create_download t sid k fn om mt enc nm) k =
      some ⟨sid, k, fn, om, mt, enc, nm, []⟩ :=
    lookup_dictInsert_self t k _
  have h1 := applyChunks_lookup (cs ++ [[]]) _ k _ h0
  constructor
  · rw [h1]
    simp
  · have hscript : (cs.map some ++ [some []]).map DlEvent.deq ++ rest =
        cs.map (fun c => DlEvent.deq (some c)) ++ DlEvent.deq (some []) :: rest := by
      simp [List.map_append, List.map_map, Function.comp]
    rw [hscript]
    exact downloadRun_yields _ k cs hc (DlEvent.deq (some []))
      rest (Or.inr (Or.inr (Or.inr rfl)))

/-- Witness for C6: two chunks `[104]` and `[105]` then the empty
sentinel, on a fresh table. -/
theorem download_chunk_order_witness :
    (lookup (applyChunksReceived
        (create_download [] "sess" "k" "f.txt" "download" "text/plain"
          none none) "k"
        (([[104], [105]] ++ [[]]).map ChunkVal.pbytes)) "k").map
        Download.incoming_chunks
      = some ([[104], [105]].map some ++ [some []])
    ∧ downloadRun
        (applyChunksReceived
          (create_download [] "sess" "k" "f.txt" "download" "text/plain"
            none none) "k"
          (([[104], [105]] ++ [[]]).map ChunkVal.pbytes)) "k"
        (([[104], [105]].map some ++ [some []]).map DlEvent.deq ++ [])
      = ([[104], [105]],
          erase (applyChunksReceived
            (create_download [] "sess" "k" "f.txt" "download" "text/plain"
              none none) "k"
            (([[104], [105]] ++ [[]]).map ChunkVal.pbytes)) "k") :=
  download_chunk_order [] "sess" "k" "f.txt" "download" "text/plain"
    none none [[104], [105]] [] (by decide)

/-! ## Claim C7 -/

/-- A cancelled download with one chunk still pending in its queue, for the
C7 counterexample. -/
def dEx7 : Download :=
  ⟨"sess", "k", "file.txt", "download", "text/plain", none, none, [some [1]]⟩

/-- Counterexample for C7: a download owned by session `"sess"` with chunk
`[1]` still queued.  Immediately after `cancel_app_downloads "sess"` the
sentinel sits behind the pending chunk, so the next dequeue by the
`download` loop yields the chunk `[1]` to the HTTP client — a chunk is
observed after the cancel — and does not remove the key (the table is
unchanged after that dequeue). -/
theorem cancel_downloads_counterexample :
    (lookup (cancel_app_downloads [("k", dEx7)] "sess") "k").map
        Download.incoming_chunks = some [some [1], none]
    ∧ downloadRun (cancel_app_downloads [("k", dEx7)] "sess") "k"
        [DlEvent.deq (some [1])]
      = ([[1]], cancel_app_downloads [("k", dEx7)] "sess") := by
  exact ⟨rfl, rfl⟩

/-- Claim C7 (amended): cancellation lifecycle.  Immediately after
`cancel_app_downloads sid`, every delivery key whose download is owned by
session `sid` has the end-of-stream sentinel at the back of its queue, so
the `download` loop terminates and removes the key after yielding at most
the chunks that were already enqueued before the cancel (`yieldsOf` of the
pre-cancel queue); no chunk enqueued after the cancel is ever yielded.
Removal happens at the dequeue that reaches the sentinel, not necessarily
the next dequeue. -/
theorem cancel_downloads_sentinel (t : DownloadTable) (sid k : String)
    (d : Download) (rest : List DlEvent)
    (hl : lookup t k = some d) (hs : d.app_service_id = sid) :
    (lookup (cancel_app_downloads t sid) k).map Download.incoming_chunks
      = some (d.incoming_chunks ++ [none])
    ∧ downloadRun (cancel_app_downloads t sid) k
        ((d.incoming_chunks ++ [none]).map DlEvent.deq ++ rest)
      = (yieldsOf d.incoming_chunks,
          erase (cancel_app_downloads t sid) k) := by
  constructor
  · rw [lookup_cancel, hl]
    simp [hs]
  · rw [List.map_append, List.map_cons, List.map_nil, List.append_assoc,
      List.cons_append, List.nil_append]
    exact downloadRun_queue_sentinel _ k d.incoming_chunks rest

/-- Witness for the amended C7: one owned download with chunk `[7]`
pending; after the cancel the queue is `[some [7], none]` and draining it
yields `[7]` then removes the key. -/
theorem cancel_downloads_sentinel_witness :
    (lookup (cancel_app_downloads
        [("k", ⟨"sess", "k", "f", "download", "text/plain", none, none,
          [some [7]]⟩)] "sess") "k").map Download.incoming_chunks
      = some ([some [7]] ++ [none])
    ∧ downloadRun (cancel_app_downloads
        [("k", ⟨"sess", "k", "f", "download", "text/plain", none, none,
          [some [7]]⟩)] "sess") "k"
        (([some [7]] ++ [none]).map DlEvent.deq ++ [])
      = (yieldsOf [some [7]],
          erase (cancel_app_downloads
            [("k", ⟨"sess", "k", "f", "download", "text/plain", none, none,
              [some [7]]⟩)] "sess") "k") :=
  cancel_downloads_sentinel
    [("k", ⟨"sess", "k", "f", "download", "text/plain", none, none,
      [some [7]]⟩)] "sess" "k"
    ⟨"sess", "k", "f", "download", "text/plain", none, none, [some [7]]⟩
    [] rfl rfl

/-! ## Claim C8 -/

/-- A download owned by session `"sess"` that no HTTP client is consuming,
for the C8 counterexample. -/
def dEx8 : Download :=
  ⟨"sess", "k", "file.txt", "download", "text/plain", none, none, []⟩

/-- Counterexample for C8: after `stop()` of the owning session completes
(its only broker effect is `cancel_app_downloads`), the download is still
retrievable through `get_download_metadata` — the broker table never loses
the entry unless an active `download` loop dequeues the sentinel. -/
theorem stop_retrievable_counterexample :
    get_download_metadata (stop_cancel_downloads "sess" [("k", dEx8)]) "k"
      = some { dEx8 with incoming_chunks := [none] }
    ∧ (get_download_metadata
        (stop_cancel_downloads "sess" [("k", dEx8)]) "k").isSome = true := by
  exact ⟨rfl, rfl⟩

/-- Claim C8 (amended): session-bound reachability.  The broker call made
by `AppService.stop` (`cancel_app_downloads`) removes nothing from the
table: every download that was retrievable before `stop` is still
retrievable afterwards, with the end-of-stream sentinel appended to its
queue when the session owns it (and unchanged otherwise).  A download
leaves the table only when a `download(key)` consumer dequeues a falsy
item or its chunk request fails. -/
theorem stop_table_effect (t : DownloadTable) (sid k : String)
    (d : Download) (h : get_download_metadata t k = some d) :
    get_download_metadata (stop_cancel_downloads sid t) k
      = some (if d.app_service_id = sid then
          { d with incoming_chunks := d.incoming_chunks ++ [none] }
        else d) := by
  unfold get_download_metadata at h ⊢
  rw [stop_cancel_downloads, lookup_cancel, h]
  rfl

/-- Witness for the amended C8: a download owned by `"sess"` survives the
stop of its session with the sentinel appended. -/
theorem stop_table_effect_witness :
    get_download_metadata (stop_cancel_downloads "sess"
        [("k", ⟨"sess", "k", "f", "download", "text/plain", none, none,
          []⟩)]) "k"
      = some (if ("sess" : String) = "sess" then
          { (⟨"sess", "k", "f", "download", "text/plain", none, none,
            []⟩ : Download) with incoming_chunks := ([] : List (Option Bytes)) ++ [none] }
        else ⟨"sess", "k", "f", "download", "text/plain", none, none, []⟩) :=
  stop_table_effect
    [("k", ⟨"sess", "k", "f", "download", "text/plain", none, none, []⟩)]
    "sess" "k"
    ⟨"sess", "k", "f", "download", "text/plain", none, none, []⟩ rfl

/-! ## Claim C10 -/

theorem downloadRun_mem_ne_nil (script : List DlEvent) (t : DownloadTable)
    (k : String) (b : Bytes) (hb : b ∈ (downloadRun t k script).1) :
    b ≠ [] := by
  induction script generalizing t with
  | nil => simp [downloadRun] at hb
  | cons e rest ih =>
    match e with
    | DlEvent.sendFail => simp [downloadRun] at hb
    | DlEvent.timeout => simp [downloadRun] at hb
    | DlEvent.deq none => simp [downloadRun] at hb
    | DlEvent.deq (some c) =>
      by_cases hc : c = []
      · simp [downloadRun, hc] at hb
      · simp only [downloadRun, if_neg hc, List.mem_cons] at hb
        rcases hb with rfl | hb
        · exact hc
        · exact ih t hb

/-- Claim C10: every chunk yielded by the `download` loop — and hence
every block written to the HTTP response body — is a non-empty byte
string: both the `None` sentinel and the empty byte string, when dequeued,
end the stream (deleting the key) instead of being yielded. -/
theorem download_chunks_nonempty (t : DownloadTable) (k : String)
    (script rest : List DlEvent) (b : Bytes)
    (hb : b ∈ (downloadRun t k script).1) :
    b ≠ []
    ∧ downloadRun t k (DlEvent.deq none :: rest) = ([], erase t k)
    ∧ downloadRun t k (DlEvent.deq (some []) :: rest) = ([], erase t k) :=
  ⟨downloadRun_mem_ne_nil script t k b hb, rfl, rfl⟩

/-- Witness for C10: the loop that dequeues the single chunk `[1]` yields
it, and a dequeued `None` or `b""` ends the stream at once. -/
theorem download_chunks_nonempty_witness :
    ([1] : Bytes) ≠ []
    ∧ downloadRun [] "k" [DlEvent.deq none] = ([], erase [] "k")
    ∧ downloadRun [] "k" [DlEvent.deq (some [])] = ([], erase [] "k") :=
  download_chunks_nonempty [] "k" [DlEvent.deq (some [1])] [] [1]
    (by simp [downloadRun])

/-! ## `AppService.send_bytes` (`app_service.py`) -/

/-- The class of exception an I/O call raises, as `AppService.send_bytes`
distinguishes them: `RuntimeError` versus any other `Exception`
subclass. -/
inductive PyExc
  | runtimeError
  | otherError
deriving Repr, DecidableEq

/-- The outcome of one I/O call (`stdin.write` or `stdin.drain`). -/
inductive IOOutcome
  | ok
  | raises (e : PyExc)
deriving Repr, DecidableEq

/-- `AppService.send_bytes` (and, identically, `send_meta`), as a function
of the outcomes of the two I/O calls it makes.  The source wraps the
`stdin.write` of the encoded Data frame in `try/except RuntimeError` and
the `await stdin.drain()` in `try/except Exception`, each `except`
returning `False`; only then does it return `True`.  An exception other
than `RuntimeError` raised by the write is not caught and propagates
(`Except.error`). -/
def send_bytes (write : IOOutcome) (drain : IOOutcome) : Except PyExc Bool :=
  match write with
  | IOOutcome.raises PyExc.runtimeError => Except.ok false
  | IOOutcome.raises PyExc.otherError => Except.error PyExc.otherError
  | IOOutcome.ok =>
    match drain with
    | IOOutcome.raises _ => Except.ok false
    | IOOutcome.ok => Except.ok true

/-! ## Claim C3 -/

/-- Counterexample for C3: when `stdin.write` raises an exception that is
not a `RuntimeError` (for example `ConnectionResetError`), `send_bytes`
does not return `False` — the exception propagates to the caller, because
the write is guarded only by `except RuntimeError`. -/
theorem send_bytes_counterexample :
    send_bytes (IOOutcome.raises PyExc.otherError) IOOutcome.ok
      = Except.error PyExc.otherError := rfl

/-- Claim C3 (amended): `send_bytes` returns `True` exactly when both the
write and the flush complete; a `RuntimeError` from the write and any
exception from the flush yield a `False` return; but an exception other
than `RuntimeError` raised by the write propagates to the caller rather
than yielding `False`. -/
theorem send_bytes_result (w d : IOOutcome) :
    (send_bytes w d = Except.ok true ↔ w = IOOutcome.ok ∧ d = IOOutcome.ok)
    ∧ (w = IOOutcome.raises PyExc.runtimeError →
        send_bytes w d = Except.ok false)
    ∧ (∀ e, w = IOOutcome.ok → d = IOOutcome.raises e →
        send_bytes w d = Except.ok false)
    ∧ (w = IOOutcome.raises PyExc.otherError →
        send_bytes w d = Except.error PyExc.otherError) := by
  refine ⟨?_, ?_, ?_, ?_⟩
  · cases w with
    | ok => cases d with
      | ok => simp [send_bytes]
      | raises e => simp [send_bytes]
    | raises e => cases e <;> simp [send_bytes]
  · intro hw
    subst hw
    rfl
  · intro e hw hd
    subst hw
    subst hd
    rfl
  · intro hw
    subst hw
    rfl

/-- Witness for the amended C3: both calls complete and `send_bytes`
reports success; a `RuntimeError` from the write reports failure. -/
theorem send_bytes_result_witness :
    send_bytes IOOutcome.ok IOOutcome.ok = Except.ok true
    ∧ send_bytes (IOOutcome.raises PyExc.runtimeError) IOOutcome.ok
        = Except.ok false
    ∧ send_bytes IOOutcome.ok (IOOutcome.raises PyExc.otherError)
        = Except.ok false :=
  ⟨(send_bytes_result IOOutcome.ok IOOutcome.ok).1.mpr ⟨rfl, rfl⟩,
    (send_bytes_result (IOOutcome.raises PyExc.runtimeError)
      IOOutcome.ok).2.1 rfl,
    (send_bytes_result IOOutcome.ok
      (IOOutcome.raises PyExc.otherError)).2.2.1 PyExc.otherError rfl rfl⟩

/-! ## Websocket message router (`Server._process_messages`) -/

/-- JSON values, as carried by websocket text messages. -/
inductive Json
  | null
  | bool (b : Bool)
  | num (n : Int)
  | str (s : String)
  | arr (xs : List Json)
  | obj (kvs : List (String × Json))

/-- JSON-object key lookup (`data["width"]` as an `Option`). -/
def jlookup : List (String × Json) → String → Option Json
  | [], _ => none
  | (k, v) :: rest, key => if k = key then some v else jlookup rest key

/-- An observable effect of processing one websocket text message:
a JSON reply sent back over the websocket (`websocket.send_json`), bytes
written to the child's stdin as a Data frame (`app_service.send_bytes`),
or a Meta object sent to the child (`app_service.send_meta`, reached
through `set_terminal_size`, `blur` or `focus`). -/
inductive Effect
  | wsSendJson (j : Json)
  | childSendBytes (data : Bytes)
  | childSendMeta (j : Json)

/-- The per-message dispatch of `Server._process_messages` on one decoded
text-message envelope.  `none` models an exception escaping the handler:
the failed `assert isinstance(envelope, list)`, an `IndexError` from
`envelope[0]`/`envelope[1]`, the `AttributeError` when `"stdin"` data is
not a string, or the `TypeError`/`KeyError` when `"resize"` data lacks
`width`/`height`.  An envelope whose head matches none of the five known
types falls through with no effect. -/
def processMessage : Json → Option (List Effect)
  | Json.arr (Json.str "stdin" :: rest) =>
    match rest with
    | [] => none
    | d :: _ =>
      match d with
      | Json.str s => some [Effect.childSendBytes (pyEncode "utf-8" s)]
      | _ => none
  | Json.arr (Json.str "resize" :: rest) =>
    match rest with
    | [] => none
    | d :: _ =>
      match d with
      | Json.obj kvs =>
        match jlookup kvs "width", jlookup kvs "height" with
        | some w, some h =>
          some [Effect.childSendMeta (Json.obj
            [("type", Json.str "resize"), ("width", w), ("height", h)])]
        | _, _ => none
      | _ => none
  | Json.arr (Json.str "ping" :: rest) =>
    match rest with
    | [] => none
    | d :: _ => some [Effect.wsSendJson (Json.arr [Json.str "pong", d])]
  | Json.arr (Json.str "blur" :: _) =>
    some [Effect.childSendMeta (Json.obj [("type", Json.str "blur")])]
  | Json.arr (Json.str "focus" :: _) =>
    some [Effect.childSendMeta (Json.obj [("type", Json.str "focus")])]
  | Json.arr (_ :: _) => some []
  | Json.arr [] => none
  | _ => none

/-! ## Claim C9 -/

/-- Claim C9: ping idempotence and isolation.  For every JSON value `d`,
processing the websocket text message `["ping", d]` produces exactly one
effect: the reply `["pong", d]` sent back over the websocket.  No bytes
and no Meta object are written to the child process, and the broker table
is not touched (the handler calls only `websocket.send_json`). -/
theorem ping_pong_isolated (d : Json) :
    processMessage (Json.arr [Json.str "ping", d])
      = some [Effect.wsSendJson (Json.arr [Json.str "pong", d])] := rfl

end TextualServe
